import Mathlib

/-!
Shallow embedding of the `pololu-motoron` Rust driver's protocol codec
(`src/commands.rs`, `src/lib.rs`, `src/controllers.rs`).

Bytes are modelled as `Nat` (every value actually written is < 256), Rust
`u8`/`u16` fields as `Nat`, `i16` as `Int`, `f32` as `ℚ` with exact
arithmetic (the concrete speeds appearing in the claims are exactly
representable in `f32`, so no rounding discrepancy arises for them).
A mutable byte slice is an explicit `List Nat` threaded through
`encode_body`, which returns the result flag together with the buffer
state after the call, so that partial writes before a validation failure
are observable.  Rust panics (out-of-bounds indexing, failing `expect`)
cannot occur on the buffers `encode_command` actually passes, which are
exactly `num_bytes` long (plus the checksum slot); the model is used only
on such buffers.
-/

instance {ε α : Type} [DecidableEq ε] [DecidableEq α] : DecidableEq (Except ε α)
  | .error a, .error b =>
      if h : a = b then .isTrue (by rw [h])
      else .isFalse (by intro hc; cases hc; exact h rfl)
  | .error _, .ok _ => .isFalse (by intro hc; cases hc)
  | .ok _, .error _ => .isFalse (by intro hc; cases hc)
  | .ok a, .ok b =>
      if h : a = b then .isTrue (by rw [h])
      else .isFalse (by intro hc; cases hc; exact h rfl)

namespace Motoron

/-- Error enum from `commands.rs` (`Error`). -/
inductive Err where
  | invalidValue (min max value : Int) (field : String)
  | invalidResponseLength (expected actual : Nat)
  | invalidResponseCrc (expected actual : Nat)
  deriving DecidableEq, Repr

/-- `SpeedMode` from `commands.rs`. -/
inductive SpeedMode where
  | normal
  | now
  | buffered
  deriving DecidableEq, Repr

/-- `SpeedModeNoBuffer` from `commands.rs`. -/
inductive SpeedModeNoBuffer where
  | normal
  | now
  deriving DecidableEq, Repr

/-- `BrakingMode` from `commands.rs`. -/
inductive BrakingMode where
  | normal
  | now
  deriving DecidableEq, Repr

/-- The closed family of command types implementing the `Command` trait in
`commands.rs`, as one inductive.  `multiDeviceWrite` carries its inner
command, mirroring `MultiDeviceWrite<C: Command>`. -/
inductive Cmd where
  | getFirmwareVersion
  | setProtocolOptions (crc_for_commands crc_for_responses i2c_general_call : Bool)
  | readEeprom (offset length : Nat)
  | writeEeprom (offset value : Nat)
  | reinitialise
  | reset
  | getVariables (motor offset length : Nat)
  | setVariable (motor offset value : Nat)
  | coastNow
  | clearMotorFault (unconditional : Bool)
  | clearLatchedStatusFlags (flags : Nat)
  | setLatchedStatusFlags (flags : Nat)
  | setSpeed (mode : SpeedMode) (motor : Nat) (speed : Int)
  | setAllSpeeds (mode : SpeedMode) (speeds : List Int)
  | setAllSpeedsUsingBuffers (mode : SpeedModeNoBuffer)
  | setBraking (mode : BrakingMode) (motor : Nat) (ammount : Nat)
  | resetCommandTimeout
  | multiDeviceErrorCheck (starting_device_number device_count : Nat)
  | multiDeviceWrite (starting_device_number device_count : Nat) (command : Cmd)
  deriving DecidableEq, Repr

/-- `Command::code` for each variant (the `plain_code!` bytes and the
mode-dependent `code` implementations). -/
def code : Cmd → Nat
  | .getFirmwareVersion => 0x87
  | .setProtocolOptions _ _ _ => 0x8B
  | .readEeprom _ _ => 0x93
  | .writeEeprom _ _ => 0x95
  | .reinitialise => 0x96
  | .reset => 0x99
  | .getVariables _ _ _ => 0x9A
  | .setVariable _ _ _ => 0x9C
  | .coastNow => 0xA5
  | .clearMotorFault _ => 0xA6
  | .clearLatchedStatusFlags _ => 0xA9
  | .setLatchedStatusFlags _ => 0xAC
  | .setSpeed mode _ _ =>
      match mode with
      | .normal => 0xD1
      | .now => 0xD2
      | .buffered => 0xD4
  | .setAllSpeeds mode _ =>
      match mode with
      | .normal => 0xE1
      | .now => 0xE2
      | .buffered => 0xE4
  | .setAllSpeedsUsingBuffers mode =>
      match mode with
      | .normal => 0xF0
      | .now => 0xF3
  | .setBraking mode _ _ =>
      match mode with
      | .normal => 0xB1
      | .now => 0xB2
  | .resetCommandTimeout => 0xF5
  | .multiDeviceErrorCheck _ _ => 0xF5
  | .multiDeviceWrite _ _ _ => 0xF9

/-- `Command::num_bytes` for each variant (the `plain_byte_count!` values and
the dynamic lengths of `SetAllSpeeds` and `MultiDeviceWrite`). -/
def num_bytes : Cmd → Nat
  | .getFirmwareVersion => 0
  | .setProtocolOptions _ _ _ => 2
  | .readEeprom _ _ => 2
  | .writeEeprom _ _ => 6
  | .reinitialise => 0
  | .reset => 0
  | .getVariables _ _ _ => 3
  | .setVariable _ _ _ => 4
  | .coastNow => 0
  | .clearMotorFault _ => 1
  | .clearLatchedStatusFlags _ => 2
  | .setLatchedStatusFlags _ => 2
  | .setSpeed _ _ _ => 3
  | .setAllSpeeds _ speeds => speeds.length * 2
  | .setAllSpeedsUsingBuffers _ => 0
  | .setBraking _ _ _ => 3
  | .resetCommandTimeout => 0
  | .multiDeviceErrorCheck _ _ => 2
  | .multiDeviceWrite _ _ command => 4 + num_bytes command

/-- `Command::expected_response_bytes` (default 0, overridden by some). -/
def expected_response_bytes : Cmd → Nat
  | .getFirmwareVersion => 4
  | .readEeprom _ length => length
  | .getVariables _ _ length => length
  | .multiDeviceErrorCheck _ _ => 1
  | _ => 0

/-- The two's-complement reinterpretation of an `i16` as a `u16`
(the `std::mem::transmute` in `SetSpeed::encode_body`). -/
def i16_as_u16 (s : Int) : Nat := (s % 65536).toNat

/-- `write_inverted_bytes` from `commands.rs`: for each `i` in
`[start, start+len)`, write `data[i] ^ 0x7F` at `data[i + off]`.  The
source panics when `off + len > data.len()`; both call sites write within
the command's `num_bytes`, so the buffers used here always have room. -/
def write_inverted_bytes (data : List Nat) (start len off : Nat) : List Nat :=
  match len with
  | 0 => data
  | m + 1 =>
      write_inverted_bytes
        (data.set (start + off) (Nat.xor ((data.get? start).getD 0) 0x7F))
        (start + 1) m off

/-- The loop body of `SetAllSpeeds::encode_body`: validates each speed in
order and writes its two 7-bit bytes at `idx*2`, `idx*2+1` before moving to
the next element.  Returns the result together with the buffer state, which
keeps the bytes already written when a later element fails validation. -/
def encode_speeds : List Int → Nat → List Nat → Except Err Unit × List Nat
  | [], _, bytes => (Except.ok (), bytes)
  | speed :: rest, idx, bytes =>
      if speed < -800 ∨ speed > 800 then
        (Except.error (Err.invalidValue (-800) 800 speed "speeds"), bytes)
      else
        let speed_as_2c := i16_as_u16 speed
        let bytes :=
          (bytes.set (idx * 2) (Nat.land speed_as_2c 0x7F)).set (idx * 2 + 1)
            (Nat.land (Nat.shiftRight speed_as_2c 7) 0x7F)
        encode_speeds rest (idx + 1) bytes

/-- `Command::encode_body` for each variant, over an explicit buffer.
Returns the Rust `Result` together with the buffer after the call, so the
bytes written before a validation failure remain visible.  Validation
checks are the `check_value!` comparisons of the source; `< min` checks
against `0` on unsigned fields are vacuous there and omitted here
(`#[allow(unused_comparisons)]` in the source). -/
def encode_body : Cmd → List Nat → Except Err Unit × List Nat
  | .getFirmwareVersion, bytes => (Except.ok (), bytes)
  | .setProtocolOptions c r g, bytes =>
      let options_byte :=
        Nat.lor (Nat.lor (if c then 1 else 0) (Nat.shiftLeft (if r then 1 else 0) 1))
          (Nat.shiftLeft (if g then 1 else 0) 2)
      let bytes := bytes.set 0 options_byte
      (Except.ok (), write_inverted_bytes bytes 0 1 1)
  | .readEeprom offset length, bytes =>
      if offset > 0x7F then
        (Except.error (Err.invalidValue 0 0x7F offset "offset"), bytes)
      else if length < 1 ∨ length > 32 then
        (Except.error (Err.invalidValue 1 32 length "length"), bytes)
      else
        (Except.ok (), (bytes.set 0 offset).set 1 length)
  | .writeEeprom offset value, bytes =>
      if offset > 0x7F then
        (Except.error (Err.invalidValue 0 0x7F offset "offset"), bytes)
      else
        let bytes := bytes.set 0 offset
        let bytes := bytes.set 1 (if Nat.land value 0x80 ≠ 0 then 1 else 0)
        let bytes := bytes.set 2 (Nat.land value 0x7F)
        (Except.ok (), write_inverted_bytes bytes 0 3 3)
  | .reinitialise, bytes => (Except.ok (), bytes)
  | .reset, bytes => (Except.ok (), bytes)
  | .getVariables motor offset length, bytes =>
      if motor > 3 then
        (Except.error (Err.invalidValue 0 3 motor "motor"), bytes)
      else if offset > 0x7F then
        (Except.error (Err.invalidValue 0 0x7F offset "offset"), bytes)
      else if length < 1 ∨ length > 32 then
        (Except.error (Err.invalidValue 1 32 length "length"), bytes)
      else
        (Except.ok (), ((bytes.set 0 motor).set 1 offset).set 2 length)
  | .setVariable motor offset value, bytes =>
      if motor > 3 then
        (Except.error (Err.invalidValue 0 3 motor "motor"), bytes)
      else if offset > 0x7F then
        (Except.error (Err.invalidValue 0 0x7F offset "offset"), bytes)
      else if value > 0x3FFF then
        (Except.error (Err.invalidValue 0 0x3FFF value "value"), bytes)
      else
        let bytes := bytes.set 0 motor
        let bytes := bytes.set 1 offset
        let bytes := bytes.set 2 (Nat.land value 0x7F)
        let bytes := bytes.set 3 (Nat.land (Nat.shiftRight value 7) 0x7F)
        (Except.ok (), bytes)
  | .coastNow, bytes => (Except.ok (), bytes)
  | .clearMotorFault unconditional, bytes =>
      (Except.ok (), bytes.set 0 (if unconditional then 1 else 0))
  | .clearLatchedStatusFlags flags, bytes =>
      if flags > 0x3FF then
        (Except.error (Err.invalidValue 0 0x3FF flags "flags"), bytes)
      else
        let bytes := bytes.set 0 (Nat.land flags 0x7F)
        let bytes := bytes.set 1 (Nat.land (Nat.shiftRight flags 7) 0x7)
        (Except.ok (), bytes)
  | .setLatchedStatusFlags flags, bytes =>
      if flags > 0x3FF then
        (Except.error (Err.invalidValue 0 0x3FF flags "flags"), bytes)
      else
        let bytes := bytes.set 0 (Nat.land flags 0x7F)
        let bytes := bytes.set 1 (Nat.land (Nat.shiftRight flags 7) 0x7)
        (Except.ok (), bytes)
  | .setSpeed _ motor speed, bytes =>
      if motor > 3 then
        (Except.error (Err.invalidValue 0 3 motor "motor"), bytes)
      else if speed < -800 ∨ speed > 800 then
        (Except.error (Err.invalidValue (-800) 800 speed "speed"), bytes)
      else
        let speed_as_2c := i16_as_u16 speed
        let bytes := bytes.set 0 motor
        let bytes := bytes.set 1 (Nat.land speed_as_2c 0x7F)
        let bytes := bytes.set 2 (Nat.land (Nat.shiftRight speed_as_2c 7) 0x7F)
        (Except.ok (), bytes)
  | .setAllSpeeds _ speeds, bytes => encode_speeds speeds 0 bytes
  | .setAllSpeedsUsingBuffers _, bytes => (Except.ok (), bytes)
  | .setBraking _ motor ammount, bytes =>
      if motor < 1 ∨ motor > 3 then
        (Except.error (Err.invalidValue 1 3 motor "motor"), bytes)
      else if ammount > 800 then
        (Except.error (Err.invalidValue 0 800 ammount "ammount"), bytes)
      else
        let bytes := bytes.set 0 motor
        let bytes := bytes.set 1 (Nat.land ammount 0x7F)
        let bytes := bytes.set 2 (Nat.land (Nat.shiftRight ammount 7) 0x7F)
        (Except.ok (), bytes)
  | .resetCommandTimeout, bytes => (Except.ok (), bytes)
  | .multiDeviceErrorCheck start count, bytes =>
      if start > 0x7F then
        (Except.error (Err.invalidValue 0 0x7F start "starting_device_number"), bytes)
      else if count > 0x7F then
        (Except.error (Err.invalidValue 0 0x7F count "device_count"), bytes)
      else
        (Except.ok (), (bytes.set 0 start).set 1 count)
  | .multiDeviceWrite start count command, bytes =>
      if start > 0x7F then
        (Except.error (Err.invalidValue 0 0x7F start "starting_device_number"), bytes)
      else if count > 0x7F then
        (Except.error (Err.invalidValue 0 0x7F count "device_count"), bytes)
      else
        let command_length := num_bytes command
        let bytes := bytes.set 0 start
        let bytes := bytes.set 1 count
        let bytes := bytes.set 2 command_length
        let bytes := bytes.set 3 (code command)
        match encode_body command (bytes.drop 4) with
        | (Except.error e, inner) => (Except.error e, bytes.take 4 ++ inner)
        | (Except.ok _, inner) => (Except.ok (), bytes.take 4 ++ inner)

/-- `get_crc` from `commands.rs`: XOR each byte into an 8-bit register, then
8 rounds of conditional XOR with `0x91` followed by a right shift. -/
def crc_round (crc : Nat) : Nat :=
  Nat.shiftRight (if Nat.land crc 1 ≠ 0 then Nat.xor crc 0x91 else crc) 1

def get_crc (message : List Nat) : Nat :=
  message.foldl (fun crc byte => crc_round^[8] (Nat.xor crc byte)) 0

/-- `encode_command` from `commands.rs`: allocate
`1 + num_bytes + (crc ? 1 : 0)` zero bytes, write the opcode at 0, let the
command encode its body into the slice after the opcode, and when the CRC is
enabled overwrite the last byte with the checksum of everything before it.
A body-encoding error is returned as-is and the buffer is dropped. -/
def encode_command (cmd : Cmd) (with_crc : Bool) : Except Err (List Nat) :=
  let len := 1 + num_bytes cmd + (if with_crc then 1 else 0)
  let response := (List.replicate len 0).set 0 (code cmd)
  match encode_body cmd (response.drop 1) with
  | (Except.error e, _) => Except.error e
  | (Except.ok _, body) =>
      let response := response.take 1 ++ body
      if with_crc then
        Except.ok (response.set (len - 1) (get_crc (response.take (len - 1))))
      else
        Except.ok response

/-- `decode_response` from `commands.rs`, parameterised by the expected
response type's parser: with CRC enabled, pop the final byte, recompute the
checksum over the rest, error out on mismatch, otherwise parse the rest. -/
def decode_response {α : Type} (parse : List Nat → Except Err α)
    (data : List Nat) (with_crc : Bool) : Except Err α :=
  if with_crc then
    match data.getLast? with
    | none => Except.error (Err.invalidResponseLength 1 0)
    | some actual =>
        let rest := data.dropLast
        let expected := get_crc rest
        if expected ≠ actual then
          Except.error (Err.invalidResponseCrc expected actual)
        else
          parse rest
  else
    parse data

/-- `impl Response for ()` from `commands.rs`. -/
def parse_unit (data : List Nat) : Except Err Unit :=
  if data.length ≠ 0 then
    Except.error (Err.invalidResponseLength 0 data.length)
  else
    Except.ok ()

/-- `impl Response for Vec<u8>` from `commands.rs`: passthrough. -/
def parse_vec (data : List Nat) : Except Err (List Nat) :=
  Except.ok data

/-- `FirmwareVersion` from `commands.rs`. -/
structure FirmwareVersion where
  product_id : Nat
  minor_fw_version : Nat
  major_fw_version : Nat
  deriving DecidableEq, Repr

/-- `impl Response for FirmwareVersion`. -/
def FirmwareVersion.parse (data : List Nat) : Except Err FirmwareVersion :=
  if data.length ≠ 4 then
    Except.error (Err.invalidResponseLength 4 data.length)
  else
    Except.ok
      { product_id := Nat.lor ((data.get? 0).getD 0) (Nat.shiftLeft ((data.get? 1).getD 0) 8)
        minor_fw_version := (data.get? 2).getD 0
        major_fw_version := (data.get? 3).getD 0 }

/-- `MultiDeviceErrorCheckReponse` from `commands.rs` (source spelling kept). -/
inductive MultiDeviceErrorCheckReponse where
  | errorActive
  | ok
  | unknown (value : Nat)
  deriving DecidableEq, Repr

/-- `impl Response for MultiDeviceErrorCheckReponse`. -/
def MultiDeviceErrorCheckReponse.parse
    (data : List Nat) : Except Err MultiDeviceErrorCheckReponse :=
  if data.length ≠ 1 then
    Except.error (Err.invalidResponseLength 1 data.length)
  else
    Except.ok
      (match (data.get? 0).getD 0 with
       | 0x00 => MultiDeviceErrorCheckReponse.errorActive
       | 0x3C => MultiDeviceErrorCheckReponse.ok
       | v => MultiDeviceErrorCheckReponse.unknown v)

/-- `ControllerType` from `controllers.rs`. -/
inductive ControllerType where
  | M1T550 | M1U550 | M2T550 | M2U550
  | M1T256 | M1U256 | M2T256 | M2U256
  | M3S550 | M3H550 | M3S256 | M3H256
  | M2S24v14 | M2H24v14 | M2S24v16 | M2H24v16
  | M2S18v18 | M2H18v18 | M2S18v20 | M2H18v20
  deriving DecidableEq, Repr

/-- `ControllerType::motor_channels` from `controllers.rs`. -/
def motor_channels : ControllerType → Nat
  | .M1T550 | .M1U550 | .M1T256 | .M1U256 => 1
  | .M2T550 | .M2U550 | .M2T256 | .M2U256
  | .M2S24v14 | .M2H24v14 | .M2S24v16 | .M2H24v16
  | .M2S18v18 | .M2H18v18 | .M2S18v20 | .M2H18v20 => 2
  | .M3S550 | .M3H550 | .M3S256 | .M3H256 => 3

/-- The session-level error enum from `lib.rs` (`Error`), without the
transport (`I2c`) variant, which wraps the external bus collaborator. -/
inductive DevError where
  | command (e : Err)
  | invalidSpeed (speed : ℚ)
  | invalidMotor (provided num_motors : Nat)
  | incorrectNumberSpeeds (provided actual : Nat)
  deriving DecidableEq, Repr

/-- Rust's `as i16` cast of an `f32` in range: truncation toward zero.
The `f32` is modelled as an exact rational. -/
def f32_as_i16 (q : ℚ) : Int :=
  if 0 ≤ q then ⌊q⌋ else ⌈q⌉

/-- `Device::get_speed_cmd` from `lib.rs`: reject a speed of magnitude above
1, reject a motor index at or above the controller's channel count, and
otherwise build a `SetSpeed` command with the speed scaled by 800 (truncated
to an integer) and the 1-based wire motor index `motor_idx + 1`. -/
def get_speed_cmd (controller_type : ControllerType) (motor_idx : Nat)
    (speed : ℚ) (mode : SpeedMode) : Except DevError Cmd :=
  let num_motors := motor_channels controller_type
  if |speed| > 1 then
    Except.error (DevError.invalidSpeed speed)
  else if motor_idx ≥ num_motors then
    Except.error (DevError.invalidMotor motor_idx num_motors)
  else
    Except.ok (Cmd.setSpeed mode (motor_idx + 1) (f32_as_i16 (speed * 800)))

/-- `Device::set_speed` builds the command via `get_speed_cmd` with
`SpeedMode::Normal` (the immediate mode) and writes its encoding; this is
the command-construction part, before the transport write. -/
def set_speed_cmd (controller_type : ControllerType) (motor_idx : Nat)
    (speed : ℚ) : Except DevError Cmd :=
  get_speed_cmd controller_type motor_idx speed SpeedMode.normal

/-- The checksum as the specification words it: initialize an 8-bit register
to 0; for each input byte, XOR it into the register, then perform 8
iterations of "if low bit set, XOR register with 0x91; shift register right
by 1".  Written by structural recursion to compare against `get_crc`. -/
def checksum_rounds : Nat → Nat → Nat
  | 0, register => register
  | k + 1, register =>
      checksum_rounds k
        (Nat.shiftRight (if Nat.land register 1 ≠ 0 then Nat.xor register 0x91 else register) 1)

def checksum_spec_from (register : Nat) : List Nat → Nat
  | [] => register
  | byte :: rest => checksum_spec_from (checksum_rounds 8 (Nat.xor register byte)) rest

def checksum_spec (bytes : List Nat) : Nat :=
  checksum_spec_from 0 bytes

/-! ### Helper lemmas about buffer manipulation -/

theorem length_write_inverted_bytes (d : List Nat) (s n o : Nat) :
    (write_inverted_bytes d s n o).length = d.length := by
  induction n generalizing d s with
  | zero => rfl
  | succ m ih => rw [write_inverted_bytes, ih, List.length_set]

theorem get?_write_inverted_bytes (d : List Nat) (s n o i : Nat)
    (h : i < s + o ∨ s + n + o ≤ i) :
    (write_inverted_bytes d s n o).get? i = d.get? i := by
  induction n generalizing d s with
  | zero => rfl
  | succ m ih =>
      rw [write_inverted_bytes, ih _ _ (by omega), List.get?_set_ne _ _ (by omega)]

theorem length_encode_speeds (l : List Int) (idx : Nat) (b : List Nat) :
    ((encode_speeds l idx b).2).length = b.length := by
  induction l generalizing idx b with
  | nil => rfl
  | cons s rest ih =>
      rw [encode_speeds]
      split
      · rfl
      · rw [ih]
        simp

theorem get?_encode_speeds (l : List Int) (idx i : Nat) (b : List Nat)
    (h : (idx + l.length) * 2 ≤ i) :
    ((encode_speeds l idx b).2).get? i = b.get? i := by
  induction l generalizing idx b with
  | nil => rfl
  | cons s rest ih =>
      rw [encode_speeds]
      split
      · rfl
      · rw [ih _ _ (by simp at h ⊢; omega),
          List.get?_set_ne _ _ (by simp at h; omega),
          List.get?_set_ne _ _ (by simp at h; omega)]

theorem length_encode_body (cmd : Cmd) (b : List Nat) :
    ((encode_body cmd b).2).length = b.length := by
  induction cmd generalizing b with
  | setAllSpeeds mode speeds =>
      simpa [encode_body] using length_encode_speeds speeds 0 b
  | multiDeviceWrite sdn dc inner ih =>
      rw [encode_body]
      split
      · rfl
      split
      · rfl
      rcases h : encode_body inner
          (((((b.set 0 sdn).set 1 dc).set 2 (num_bytes inner)).set 3 (code inner)).drop 4)
        with ⟨r, ib⟩
      have hib : ib.length =
          (((((b.set 0 sdn).set 1 dc).set 2 (num_bytes inner)).set 3 (code inner)).drop 4).length := by
        have := ih (((((b.set 0 sdn).set 1 dc).set 2 (num_bytes inner)).set 3 (code inner)).drop 4)
        rw [h] at this
        exact this
      cases r <;> simp [h] <;> simp at hib <;> omega
  | _ =>
      first
        | rfl
        | (rw [encode_body]
           repeat' split
           all_goals simp [length_write_inverted_bytes])

theorem get?_encode_body (cmd : Cmd) (b : List Nat) (i : Nat)
    (hlen : num_bytes cmd ≤ b.length) (hi : num_bytes cmd ≤ i) :
    ((encode_body cmd b).2).get? i = b.get? i := by
  induction cmd generalizing b i with
  | setAllSpeeds mode speeds =>
      simp only [num_bytes] at hi
      simpa [encode_body] using get?_encode_speeds speeds 0 i b (by omega)
  | multiDeviceWrite sdn dc inner ih =>
      simp only [num_bytes] at hi hlen
      rw [encode_body]
      split
      · rfl
      split
      · rfl
      rcases h : encode_body inner
          (((((b.set 0 sdn).set 1 dc).set 2 (num_bytes inner)).set 3 (code inner)).drop 4)
        with ⟨r, ib⟩
      have key : ib.get? (i - 4) =
          (((((b.set 0 sdn).set 1 dc).set 2 (num_bytes inner)).set 3 (code inner)).drop 4).get?
            (i - 4) := by
        have := ih
          (((((b.set 0 sdn).set 1 dc).set 2 (num_bytes inner)).set 3 (code inner)).drop 4)
          (i - 4) (by simp; omega) (by omega)
        rw [h] at this
        exact this
      have htake : ((((((b.set 0 sdn).set 1 dc).set 2 (num_bytes inner)).set 3
          (code inner)).take 4)).length = 4 := by
        simp
        omega
      have hfin : (((((b.set 0 sdn).set 1 dc).set 2 (num_bytes inner)).set 3
            (code inner)).take 4 ++ ib).get? i = b.get? i := by
        rw [List.get?_append_right (by omega), htake, key, List.get?_drop]
        have h4 : 4 + (i - 4) = i := by omega
        rw [h4, List.get?_set_ne _ _ (by omega), List.get?_set_ne _ _ (by omega),
          List.get?_set_ne _ _ (by omega), List.get?_set_ne _ _ (by omega)]
      cases r <;> simpa [h] using hfin
  | _ =>
      simp only [num_bytes] at hi
      first
        | rfl
        | (rw [encode_body]
           repeat' split
           all_goals try rfl
           all_goals
             (repeat rw [get?_write_inverted_bytes _ _ _ _ _ (by omega)]
              repeat rw [List.get?_set_ne _ _ (by omega)]))

theorem encode_speeds_error (l : List Int) (idx : Nat) (b : List Nat) (e : Err)
    (h : (encode_speeds l idx b).1 = Except.error e) :
    ∃ mn mx v f, e = Err.invalidValue mn mx v f := by
  induction l generalizing idx b with
  | nil => simp [encode_speeds] at h
  | cons s rest ih =>
      rw [encode_speeds] at h
      split at h
      · simp at h
        exact ⟨-800, 800, s, "speeds", h.symm⟩
      · exact ih _ _ h

theorem encode_body_error (cmd : Cmd) (b : List Nat) (e : Err)
    (h : (encode_body cmd b).1 = Except.error e) :
    ∃ mn mx v f, e = Err.invalidValue mn mx v f := by
  induction cmd generalizing b e with
  | setAllSpeeds mode speeds =>
      exact encode_speeds_error speeds 0 b e (by simpa [encode_body] using h)
  | multiDeviceWrite sdn dc inner ih =>
      rw [encode_body] at h
      split at h
      · simp at h
        exact ⟨_, _, _, _, h.symm⟩
      split at h
      · simp at h
        exact ⟨_, _, _, _, h.symm⟩
      rcases heq : encode_body inner
          (((((b.set 0 sdn).set 1 dc).set 2 (num_bytes inner)).set 3 (code inner)).drop 4)
        with ⟨r, ib⟩
      cases r with
      | error e' =>
          simp only [heq] at h
          simp at h
          subst h
          exact ih _ _ (by rw [heq])
      | ok u =>
          simp only [heq] at h
          simp at h
  | _ =>
      rw [encode_body] at h
      repeat' split at h
      all_goals simp at h
      all_goals exact ⟨_, _, _, _, h.symm⟩

/-! ### The checksum as the spec words it -/

theorem crc_round_iterate (k r : Nat) : crc_round^[k] r = checksum_rounds k r := by
  induction k generalizing r with
  | zero => rfl
  | succ m ih =>
      rw [Function.iterate_succ_apply, ih]
      rfl

theorem foldl_crc_eq_checksum_spec_from (l : List Nat) (r : Nat) :
    l.foldl (fun crc byte => crc_round^[8] (Nat.xor crc byte)) r = checksum_spec_from r l := by
  induction l generalizing r with
  | nil => rfl
  | cons b rest ih =>
      rw [List.foldl_cons, ih]
      rw [crc_round_iterate]
      rfl

/-! ### Claim theorems -/

/-- C3: `get_crc` is exactly the pure function the spec describes (8-bit
register starting at 0; per byte, XOR it in then 8 rounds of conditional
XOR with 0x91 followed by a right shift), and the same function validates
inbound frames: a frame whose trailer was produced by `get_crc` passes the
inbound check of `decode_response` and is handed to the parser. -/
theorem checksum_engine_is_spec :
    (∀ bytes : List Nat, get_crc bytes = checksum_spec bytes) ∧
    (∀ l : List Nat, decode_response parse_vec (l ++ [get_crc l]) true = Except.ok l) := by
  constructor
  · intro bytes
    exact foldl_crc_eq_checksum_spec_from bytes 0
  · intro l
    simp [decode_response, List.getLast?_concat, List.dropLast_concat, parse_vec]

/-- C4: with the checksum enabled, `decode_response` pops the final byte,
recomputes `get_crc` over the remainder, and returns the distinct
`InvalidResponseCrc {expected, actual}` error on mismatch (never a parsed
value); only on a match does it hand the remaining bytes to the parser. -/
theorem decode_response_checks_crc {α : Type} (parse : List Nat → Except Err α)
    (data : List Nat) (h : data ≠ []) :
    decode_response parse data true =
      if get_crc data.dropLast = data.getLast?.getD 0 then parse data.dropLast
      else
        Except.error
          (Err.invalidResponseCrc (get_crc data.dropLast) (data.getLast?.getD 0)) := by
  have hsome : data.getLast?.isSome := by
    rw [List.getLast?_isSome]
    exact h
  rcases hl : data.getLast? with _ | a
  · rw [hl] at hsome
    simp at hsome
  · rw [decode_response, hl]
    by_cases hc : get_crc data.dropLast = a <;> simp [hl, hc]

/-- Witness for C4 at a concrete frame: decoding `[1]` with the checksum
enabled pops `1`, recomputes the checksum `0` of the empty remainder, and
reports the mismatch. -/
theorem decode_response_checks_crc_witness :
    decode_response parse_unit [1] true = Except.error (Err.invalidResponseCrc 0 1) :=
  (decode_response_checks_crc parse_unit [1] (by decide)).trans (by decide)

/-- C6 counterexample: the claim says `SetBraking` accepts every motor index
in 0–3, but `encode_body` on motor index 0 returns `InvalidValue` whose own
documented range is 1–3. -/
theorem set_braking_rejects_motor_zero :
    (encode_body (Cmd.setBraking BrakingMode.normal 0 0) (List.replicate 3 0)).1 =
      Except.error (Err.invalidValue 1 3 0 "motor") := by decide

/-- C6 amended: `SetBraking` (both sub-modes) accepts exactly the motor
indices 1–3 and braking amounts 0–800, writing the motor index byte
verbatim, and returns `InvalidValue` exactly when an argument lies outside
those ranges. -/
theorem set_braking_ranges :
    (∀ (mode : BrakingMode) (motor ammount : Nat), motor < 1 ∨ motor > 3 →
      (encode_body (Cmd.setBraking mode motor ammount) (List.replicate 3 0)).1 =
        Except.error (Err.invalidValue 1 3 motor "motor")) ∧
    (∀ (mode : BrakingMode) (motor ammount : Nat), 1 ≤ motor → motor ≤ 3 → 800 < ammount →
      (encode_body (Cmd.setBraking mode motor ammount) (List.replicate 3 0)).1 =
        Except.error (Err.invalidValue 0 800 ammount "ammount")) ∧
    (∀ (mode : BrakingMode) (motor ammount : Nat), 1 ≤ motor → motor ≤ 3 → ammount ≤ 800 →
      encode_body (Cmd.setBraking mode motor ammount) (List.replicate 3 0) =
        (Except.ok (),
          [motor, Nat.land ammount 0x7F, Nat.land (Nat.shiftRight ammount 7) 0x7F])) := by
  refine ⟨fun mode motor ammount h => ?_, fun mode motor ammount h1 h2 h3 => ?_,
    fun mode motor ammount h1 h2 h3 => ?_⟩
  · rw [encode_body, if_pos (by omega)]
  · rw [encode_body, if_neg (by omega), if_pos (by omega)]
  · rw [encode_body, if_neg (by omega), if_neg (by omega)]
    rfl

/-- Witness for C6's amended theorem at concrete inputs: motor 0 is
rejected, motor 1 with amount 800 encodes verbatim. -/
theorem set_braking_ranges_witness :
    (encode_body (Cmd.setBraking BrakingMode.now 0 5) (List.replicate 3 0)).1 =
      Except.error (Err.invalidValue 1 3 0 "motor") ∧
    encode_body (Cmd.setBraking BrakingMode.now 1 800) (List.replicate 3 0) =
      (Except.ok (),
        [1, Nat.land 800 0x7F, Nat.land (Nat.shiftRight 800 7) 0x7F]) :=
  ⟨set_braking_ranges.1 BrakingMode.now 0 5 (by omega),
   set_braking_ranges.2.2 BrakingMode.now 1 800 (by omega) (by omega) (by omega)⟩

/-- C7 counterexample: the claim says the inverted copy in `WriteEeprom`
covers exactly the value bytes, but the byte written immediately after the
two value bytes is the inverted offset: for offset 1, value 0 the body is
`[1, 0, 0, 0x7E, 0x7F, 0x7F]`, and `0x7E` is `1 ^ 0x7F`, not
`0 ^ 0x7F = 0x7F`. -/
theorem write_eeprom_inverts_offset_byte :
    (encode_body (Cmd.writeEeprom 1 0) (List.replicate 6 0)).2 =
      [1, 0, 0, 0x7E, 0x7F, 0x7F] ∧
    (0x7E : Nat) ≠ Nat.xor 0 0x7F := by decide

/-- C7 amended: `SetProtocolOptions` writes the packed option byte and then
that byte XORed with 0x7F immediately after it; `WriteEeprom` writes
`[offset, value bit 7, value & 0x7F]` and then those same three bytes each
XORed with 0x7F immediately after them — the inverted copy covers the
offset byte as well as the value bytes — for every offset in [0, 0x7F] and
every 8-bit value. -/
theorem echoed_inverse_fields :
    (∀ c r g : Bool,
      encode_body (Cmd.setProtocolOptions c r g) (List.replicate 2 0) =
        (Except.ok (),
          [Nat.lor (Nat.lor (if c then 1 else 0) (Nat.shiftLeft (if r then 1 else 0) 1))
             (Nat.shiftLeft (if g then 1 else 0) 2),
           Nat.xor
             (Nat.lor (Nat.lor (if c then 1 else 0) (Nat.shiftLeft (if r then 1 else 0) 1))
               (Nat.shiftLeft (if g then 1 else 0) 2)) 0x7F])) ∧
    (∀ offset value : Nat, offset ≤ 0x7F → value ≤ 0xFF →
      encode_body (Cmd.writeEeprom offset value) (List.replicate 6 0) =
        (Except.ok (),
          [offset, if Nat.land value 0x80 ≠ 0 then 1 else 0, Nat.land value 0x7F,
           Nat.xor offset 0x7F, Nat.xor (if Nat.land value 0x80 ≠ 0 then 1 else 0) 0x7F,
           Nat.xor (Nat.land value 0x7F) 0x7F])) := by
  constructor
  · intro c r g
    rfl
  · intro offset value h hv
    rw [encode_body, if_neg (by omega)]
    rfl

/-- Witness for C7's amended theorem at offset 3, value 0x85. -/
theorem echoed_inverse_fields_witness :
    encode_body (Cmd.writeEeprom 3 0x85) (List.replicate 6 0) =
      (Except.ok (),
        [3, if Nat.land 0x85 0x80 ≠ 0 then 1 else 0, Nat.land 0x85 0x7F,
         Nat.xor 3 0x7F, Nat.xor (if Nat.land 0x85 0x80 ≠ 0 then 1 else 0) 0x7F,
         Nat.xor (Nat.land 0x85 0x7F) 0x7F]) :=
  echoed_inverse_fields.2 3 0x85 (by omega) (by omega)

/-- C8: the multi-device error-check response parser fails with
`InvalidResponseLength` unless the payload is exactly one byte; on one byte
it returns error-active for 0x00, ok for 0x3C, and the tagged unrecognized
variant carrying the raw byte otherwise — in particular 0x7F decodes to
`unknown 0x7F`, never an error. -/
theorem multi_device_error_check_parse_cases :
    (∀ data : List Nat, data.length ≠ 1 →
      MultiDeviceErrorCheckReponse.parse data =
        Except.error (Err.invalidResponseLength 1 data.length)) ∧
    (∀ b : Nat,
      MultiDeviceErrorCheckReponse.parse [b] =
        Except.ok
          (if b = 0 then MultiDeviceErrorCheckReponse.errorActive
           else if b = 0x3C then MultiDeviceErrorCheckReponse.ok
           else MultiDeviceErrorCheckReponse.unknown b)) ∧
    MultiDeviceErrorCheckReponse.parse [0x7F] =
      Except.ok (MultiDeviceErrorCheckReponse.unknown 0x7F) := by
  refine ⟨fun data h => ?_, fun b => ?_, by decide⟩
  · rw [MultiDeviceErrorCheckReponse.parse, if_pos h]
  · rw [MultiDeviceErrorCheckReponse.parse, if_neg (by simp)]
    congr 1
    rcases b with _ | b
    · rfl
    · by_cases h3 : b + 1 = 0x3C <;> simp [h3]

/-- Witness for C8 at a wrong-length payload. -/
theorem multi_device_error_check_parse_cases_witness :
    MultiDeviceErrorCheckReponse.parse [1, 2] =
      Except.error (Err.invalidResponseLength 1 2) :=
  multi_device_error_check_parse_cases.1 [1, 2] (by decide)

/-- Any index at or past the `take` bound is unaffected by a `set` there. -/
theorem take_set_of_le (l : List Nat) (n m x : Nat) (h : m ≤ n) :
    (l.set n x).take m = l.take m := by
  apply List.ext_get?
  intro i
  by_cases hi : i < m
  · rw [List.get?_take hi, List.get?_take hi, List.get?_set_ne _ _ (by omega)]
  · rw [List.get?_eq_none.2 (by simp; omega), List.get?_eq_none.2 (by simp; omega)]

/-- The slice `encode_command` hands to `encode_body` (everything after the
opcode byte) is all zeroes of length `num_bytes + (crc ? 1 : 0)`. -/
theorem slice_after_opcode (m x : Nat) :
    ((List.replicate (m + 1) (0 : Nat)).set 0 x).drop 1 = List.replicate m 0 := by
  rw [List.replicate_succ]
  rfl

/-- C1 counterexample: on `SetAllSpeeds` with speeds `[1, 900]` (only the
second element out of range), `encode_body` returns the `InvalidValue`
error but has already written the first element's bytes into the buffer,
so the range checks do not all run before the first byte is written. -/
theorem set_all_speeds_partial_write :
    (encode_body (Cmd.setAllSpeeds SpeedMode.normal [1, 900]) (List.replicate 4 0)).1 =
      Except.error (Err.invalidValue (-800) 800 900 "speeds") ∧
    (encode_body (Cmd.setAllSpeeds SpeedMode.normal [1, 900]) (List.replicate 4 0)).2 ≠
      List.replicate 4 0 := by decide

/-- C1 amended: whenever any argument is out of range, `encode_body`
returns an `InvalidValue` error (every error it can produce is one), and
`encode_command` propagates that error without returning any frame — the
scratch buffer, which `SetAllSpeeds` and `MultiDeviceWrite` may already
have partially written, is discarded, so a validation failure never
produces a partially-built frame for the caller. -/
theorem validation_failure_yields_no_frame :
    (∀ (cmd : Cmd) (b : List Nat) (e : Err),
      (encode_body cmd b).1 = Except.error e →
      ∃ mn mx v f, e = Err.invalidValue mn mx v f) ∧
    (∀ (cmd : Cmd) (with_crc : Bool) (e : Err),
      (encode_body cmd
          (List.replicate (num_bytes cmd + (if with_crc then 1 else 0)) 0)).1 =
        Except.error e →
      encode_command cmd with_crc = Except.error e) := by
  refine ⟨encode_body_error, fun cmd wc e h => ?_⟩
  have harith : 1 + num_bytes cmd + (if wc then 1 else 0) =
      (num_bytes cmd + (if wc then 1 else 0)) + 1 := by omega
  simp only [encode_command, harith, slice_after_opcode]
  rcases hb : encode_body cmd (List.replicate (num_bytes cmd + (if wc then 1 else 0)) 0)
    with ⟨r, bb⟩
  rw [hb] at h
  cases r with
  | error e' =>
      simp at h
      subst h
      rfl
  | ok u => simp at h

/-- Witness for C1's amended theorem: the failing `SetAllSpeeds` encode
propagates its `InvalidValue` error through `encode_command`. -/
theorem validation_failure_yields_no_frame_witness :
    encode_command (Cmd.setAllSpeeds SpeedMode.normal [1, 900]) true =
      Except.error (Err.invalidValue (-800) 800 900 "speeds") :=
  validation_failure_yields_no_frame.2 (Cmd.setAllSpeeds SpeedMode.normal [1, 900]) true
    (Err.invalidValue (-800) 800 900 "speeds") (by decide)

/-- The first byte of the frame buffer after the opcode write is the
opcode. -/
theorem take_one_slice (m x : Nat) :
    ((List.replicate (m + 1) (0 : Nat)).set 0 x).take 1 = [x] := by
  rw [List.replicate_succ]
  rfl

/-- Shape of a successful CRC-less `encode_command`: opcode byte followed by
the body buffer. -/
theorem encode_command_ok_false (cmd : Cmd) (v : List Nat)
    (hv : encode_command cmd false = Except.ok v) :
    ∃ bb, encode_body cmd (List.replicate (num_bytes cmd) 0) = (Except.ok (), bb) ∧
      v = code cmd :: bb := by
  simp only [encode_command, Bool.false_eq_true, if_false, Nat.add_zero] at hv
  rw [show 1 + num_bytes cmd = num_bytes cmd + 1 from by omega, slice_after_opcode] at hv
  rcases hb : encode_body cmd (List.replicate (num_bytes cmd) 0) with ⟨r, bb⟩
  rw [hb] at hv
  cases r with
  | error e => simp at hv
  | ok u =>
      rw [take_one_slice] at hv
      simp only [List.singleton_append, Except.ok.injEq] at hv
      cases u
      exact ⟨bb, rfl, hv.symm⟩

/-- Shape of a successful `encode_command` with CRC: opcode byte, body
buffer, and the checksum overwriting the final slot. -/
theorem encode_command_ok_true (cmd : Cmd) (v : List Nat)
    (hv : encode_command cmd true = Except.ok v) :
    ∃ bb, encode_body cmd (List.replicate (num_bytes cmd + 1) 0) = (Except.ok (), bb) ∧
      v = (code cmd :: bb).set (num_bytes cmd + 1)
        (get_crc ((code cmd :: bb).take (num_bytes cmd + 1))) := by
  simp only [encode_command, if_true] at hv
  rw [show 1 + num_bytes cmd + 1 = (num_bytes cmd + 1) + 1 from by omega,
    slice_after_opcode, take_one_slice] at hv
  rcases hb : encode_body cmd (List.replicate (num_bytes cmd + 1) 0) with ⟨r, bb⟩
  rw [hb] at hv
  cases r with
  | error e => simp at hv
  | ok u =>
      simp only [List.singleton_append, Nat.add_sub_cancel, Except.ok.injEq] at hv
      cases u
      exact ⟨bb, rfl, hv.symm⟩

/-- C2: a successful `encode_command` returns a frame of length exactly
`1 + num_bytes + (crc ? 1 : 0)` whose byte 0 is the opcode, whose bytes
`1 .. 1 + num_bytes` are the body `encode_body` produced, and whose final
byte, when the CRC is enabled, is `get_crc` of all preceding bytes; in
particular the firmware-version query with checksum enabled encodes to
exactly `[0x87, get_crc [0x87]]`. -/
theorem encode_command_frame_layout :
    (∀ (cmd : Cmd) (with_crc : Bool) (v : List Nat),
      encode_command cmd with_crc = Except.ok v →
      v.length = 1 + num_bytes cmd + (if with_crc then 1 else 0) ∧
      v.get? 0 = some (code cmd) ∧
      (v.drop 1).take (num_bytes cmd) =
        ((encode_body cmd
            (List.replicate (num_bytes cmd + (if with_crc then 1 else 0)) 0)).2).take
          (num_bytes cmd) ∧
      (with_crc = true → v.getLast? = some (get_crc v.dropLast))) ∧
    encode_command Cmd.getFirmwareVersion true = Except.ok [0x87, get_crc [0x87]] := by
  refine ⟨fun cmd wc v hv => ?_, by decide⟩
  cases wc with
  | false =>
      obtain ⟨bb, hb, hveq⟩ := encode_command_ok_false cmd v hv
      subst hveq
      have hbb : bb.length = num_bytes cmd := by
        have := length_encode_body cmd (List.replicate (num_bytes cmd) 0)
        rw [hb] at this
        simpa using this
      refine ⟨?_, rfl, ?_, by simp⟩
      · show (code cmd :: bb).length = 1 + num_bytes cmd + 0
        simp [hbb]
        omega
      · show ((code cmd :: bb).drop 1).take (num_bytes cmd) =
          ((encode_body cmd (List.replicate (num_bytes cmd + 0) 0)).2).take (num_bytes cmd)
        rw [Nat.add_zero, hb]
        simp
  | true =>
      obtain ⟨bb, hb, hveq⟩ := encode_command_ok_true cmd v hv
      subst hveq
      have hbb : bb.length = num_bytes cmd + 1 := by
        have := length_encode_body cmd (List.replicate (num_bytes cmd + 1) 0)
        rw [hb] at this
        simpa using this
      have hltot : ((code cmd :: bb).set (num_bytes cmd + 1)
          (get_crc ((code cmd :: bb).take (num_bytes cmd + 1)))).length =
          num_bytes cmd + 2 := by
        simp [hbb]
      refine ⟨?_, ?_, ?_, fun _ => ?_⟩
      · rw [hltot]
        show num_bytes cmd + 2 = 1 + num_bytes cmd + 1
        omega
      · rw [List.get?_set_ne _ _ (by omega)]
        rfl
      · show ((code cmd :: (bb.set (num_bytes cmd)
            (get_crc ((code cmd :: bb).take (num_bytes cmd + 1))))).drop 1).take
            (num_bytes cmd) =
          ((encode_body cmd (List.replicate (num_bytes cmd + 1) 0)).2).take (num_bytes cmd)
        rw [List.drop_succ_cons, List.drop_zero, hb,
          take_set_of_le bb (num_bytes cmd) (num_bytes cmd) _ (le_refl _)]
      · rw [List.getLast?_eq_getElem?, ← List.get?_eq_getElem?, hltot,
          show num_bytes cmd + 2 - 1 = num_bytes cmd + 1 from by omega,
          List.get?_set_eq_of_lt _ (by simp [hbb]),
          List.dropLast_eq_take, hltot,
          show num_bytes cmd + 2 - 1 = num_bytes cmd + 1 from by omega,
          take_set_of_le _ _ _ _ (le_refl _)]

/-- Witness for C2 applied at a concrete successful encode: the braking
command with CRC disabled. -/
theorem encode_command_frame_layout_witness :
    [0xB1, 1, 0, 0].length =
        1 + num_bytes (Cmd.setBraking BrakingMode.normal 1 0) + (if false then 1 else 0) ∧
      ([0xB1, 1, 0, 0] : List Nat).get? 0 = some (code (Cmd.setBraking BrakingMode.normal 1 0)) :=
  let h := encode_command_frame_layout.1 (Cmd.setBraking BrakingMode.normal 1 0) false
    [0xB1, 1, 0, 0] (by decide)
  ⟨h.1, h.2.1⟩

/-- C9: on every buffer at least `num_bytes` long on which `encode_body`
succeeds, the body writes stay within the first `num_bytes` bytes: the
buffer keeps its length and every byte at index `num_bytes` or beyond is
untouched — also for the dynamically sized `SetAllSpeeds` (2 bytes per
speed) and `MultiDeviceWrite` (4 header bytes plus the inner body) — so
the frame builder's allocation is always exactly filled before any
checksum is appended. -/
theorem encode_body_stays_in_bounds (cmd : Cmd) (b : List Nat)
    (hlen : num_bytes cmd ≤ b.length)
    (_hok : (encode_body cmd b).1 = Except.ok ()) :
    ((encode_body cmd b).2).length = b.length ∧
    ∀ i, num_bytes cmd ≤ i → ((encode_body cmd b).2).get? i = b.get? i :=
  ⟨length_encode_body cmd b, fun i hi => get?_encode_body cmd b i hlen hi⟩

/-- Witness for C9 at a concrete command: a `MultiDeviceWrite` wrapping a
`SetVariable` on an 8-byte buffer with two extra slots. -/
theorem encode_body_stays_in_bounds_witness :
    ((encode_body (Cmd.multiDeviceWrite 1 2 (Cmd.setVariable 0 5 9))
        (List.replicate 10 0)).2).length = (List.replicate 10 (0 : Nat)).length ∧
      ((encode_body (Cmd.multiDeviceWrite 1 2 (Cmd.setVariable 0 5 9))
        (List.replicate 10 0)).2).get? 9 = (List.replicate 10 (0 : Nat)).get? 9 :=
  let h := encode_body_stays_in_bounds (Cmd.multiDeviceWrite 1 2 (Cmd.setVariable 0 5 9))
    (List.replicate 10 0) (by decide) (by decide)
  ⟨h.1, h.2 9 (by decide)⟩

/-- C5: the session's speed-command builder validates the speed range and
the motor index against the controller's channel count, scales the speed
into [-800, 800], and targets the 1-based wire motor index (API index + 1)
in immediate mode; on the two-channel M2T256, full speed on motor 0 yields
wire value 800 on wire motor 1 under opcode 0xD1, and motor index 2 fails
with `InvalidMotor` (no command is built). -/
theorem set_speed_session :
    (∀ (ct : ControllerType) (motor_idx : Nat) (speed : ℚ),
      |speed| ≤ 1 → motor_idx < motor_channels ct →
      set_speed_cmd ct motor_idx speed =
        Except.ok
          (Cmd.setSpeed SpeedMode.normal (motor_idx + 1) (f32_as_i16 (speed * 800))) ∧
      -800 ≤ f32_as_i16 (speed * 800) ∧ f32_as_i16 (speed * 800) ≤ 800) ∧
    set_speed_cmd ControllerType.M2T256 0 1 =
      Except.ok (Cmd.setSpeed SpeedMode.normal 1 800) ∧
    code (Cmd.setSpeed SpeedMode.normal 1 800) = 0xD1 ∧
    (∀ speed : ℚ, |speed| ≤ 1 →
      set_speed_cmd ControllerType.M2T256 2 speed =
        Except.error (DevError.invalidMotor 2 2)) := by
  refine ⟨fun ct motor_idx speed hs hm => ?_, ?_, by decide, fun speed hs => ?_⟩
  · have h8 : -800 ≤ speed * 800 ∧ speed * 800 ≤ 800 := by
      obtain ⟨hlo, hhi⟩ := abs_le.1 hs
      constructor <;> nlinarith
    refine ⟨?_, ?_, ?_⟩
    · simp only [set_speed_cmd, get_speed_cmd]
      rw [if_neg (not_lt.2 hs), if_neg (by omega)]
    · rw [f32_as_i16]
      split
      · have h0 : (0 : Int) ≤ ⌊speed * 800⌋ := Int.floor_nonneg.2 (by assumption)
        omega
      · have h1 : (⌈(-800 : ℚ)⌉ : Int) ≤ ⌈speed * 800⌉ := Int.ceil_mono h8.1
        have h2 : ⌈(-800 : ℚ)⌉ = (-800 : Int) := by
          rw [show ((-800 : ℚ)) = ((-800 : Int) : ℚ) from by norm_num, Int.ceil_intCast]
        omega
    · rw [f32_as_i16]
      split
      · have h1 : ⌊speed * 800⌋ ≤ ⌊(800 : ℚ)⌋ := Int.floor_mono h8.2
        have h2 : ⌊(800 : ℚ)⌋ = (800 : Int) := by norm_num
        omega
      · next hneg =>
          have h1 : ⌈speed * 800⌉ ≤ ⌈(0 : ℚ)⌉ :=
            Int.ceil_mono (by push_neg at hneg; linarith)
          have h2 : ⌈(0 : ℚ)⌉ = (0 : Int) := by norm_num
          omega
  · simp [set_speed_cmd, get_speed_cmd, f32_as_i16, motor_channels]
  · simp only [set_speed_cmd, get_speed_cmd]
    rw [if_neg (not_lt.2 hs), if_pos (by decide)]
    rfl

/-- Witness for C5 at half speed on the two-channel controller. -/
theorem set_speed_session_witness :
    (set_speed_cmd ControllerType.M2T256 0 (1 / 2) =
        Except.ok (Cmd.setSpeed SpeedMode.normal 1 (f32_as_i16 ((1 / 2) * 800))) ∧
      -800 ≤ f32_as_i16 ((1 / 2) * 800) ∧ f32_as_i16 ((1 / 2) * 800) ≤ 800) ∧
    set_speed_cmd ControllerType.M2T256 2 (1 / 2) =
      Except.error (DevError.invalidMotor 2 2) :=
  ⟨set_speed_session.1 ControllerType.M2T256 0 (1 / 2)
      (by rw [abs_le]; constructor <;> norm_num) (by decide),
   set_speed_session.2.2.2 (1 / 2) (by rw [abs_le]; constructor <;> norm_num)⟩

/-- C10: opcodes are not unique across the command family: the
command-timeout-reset command and the multi-device error-check command are
distinct command variants whose `code` is the same byte 0xF5. -/
theorem opcode_f5_not_unique :
    code Cmd.resetCommandTimeout = 0xF5 ∧
    code (Cmd.multiDeviceErrorCheck 0 0) = 0xF5 ∧
    Cmd.resetCommandTimeout ≠ Cmd.multiDeviceErrorCheck 0 0 := by decide

end Motoron
